import Mathlib

/-!
Shallow embedding of the idempotent resource-reconciliation layer of the
fly.io activity component (`src/activity/fly-http/impl/src/`): the machine
creation conflict resolver, the IP idempotent-allocation reconciler, the app
put-if-absent resolver, slug validation and the API-token guard.

HTTP responses are supplied through explicit environment records (status
code, parsed body, raw body); each operation returns its result together
with the trace of network calls it issued.  HTTP status codes are `Nat`;
`statusDisplay` keeps the numeric code (the Rust `Display` additionally
appends the canonical reason phrase, which no claim depends on).  Serde
decode failures whose exact message no claim depends on are modelled by
`decodeErrMsg`.
-/

/-- `StatusCode::is_success`: 2xx statuses. -/
def is_success (status : Nat) : Bool :=
  200 ≤ status && status ≤ 299

/-- Rendering of a status code inside error messages (numeric part). -/
def statusDisplay (status : Nat) : String :=
  toString status

/-- The `failed with status {status}: {body}` error shape used throughout. -/
def mkFailureMsg (status : Nat) (body : String) : String :=
  "failed with status " ++ statusDisplay status ++ ": " ++ body

/-- Stand-in for a propagated serde decode-error message. -/
def decodeErrMsg : String := "decode error"

/-- `lib.rs`: error when the `FLY_API_TOKEN` environment variable is absent. -/
def tokenErrMsg : String := "cannot obtain `FLY_API_TOKEN`"

/-- `request_with_api_token`: reads the token from the environment (modelled
as an `Option String`), failing with the configuration error when absent. -/
def request_with_api_token (token : Option String) : Except String String :=
  match token with
  | none => Except.error tokenErrMsg
  | some t => Except.ok t

/-- `char::is_ascii_alphanumeric`. -/
def isAsciiAlphanum (c : Char) : Bool :=
  ('a' ≤ c && c ≤ 'z') || ('A' ≤ c && c ≤ 'Z') || ('0' ≤ c && c ≤ '9')

/-- A URL path segment validated by `SafeUrlPart::new` (phantom marker
dropped: app name, org slug, secret key, volume id and machine id all share
this validator). -/
structure SafeUrlPart where
  value : String
deriving DecidableEq

/-- `SafeUrlPart::new`: accept iff every char is ASCII alphanumeric or `-`. -/
def SafeUrlPart.new (s : String) : Except String SafeUrlPart :=
  if s.data.all (fun c => isAsciiAlphanum c || c == '-') then
    Except.ok ⟨s⟩
  else
    Except.error "illegal slug"

/-- One network request issued by an operation (endpoint-level trace). -/
inductive NetCall where
  | postMachines
  | getMachine
  | getMachines
  | postMachineUpdate
  | postApp
  | getApp
  | getApps
  | deleteApp
  | postIpAssignment
  | getIpAssignments
  | deleteIpAssignment (ip : String)
deriving DecidableEq

/- ### App put-if-absent resolver (`app.rs`) -/

/-- The WIT `apps::App` record. -/
structure App where
  id : String
  name : String
deriving DecidableEq

/-- The `AppDetails` shape decoded from the probe GET in `put` (id, name and
organization slug). -/
structure AppDetails where
  id : String
  name : String
  orgSlug : String
deriving DecidableEq

/-- Responses seen by one run of `app.rs::put`: the POST result and the
probe GET result.  `postIdParse`/`getParse` are `none` when the body fails
to decode. -/
structure PutEnv where
  postStatus : Nat
  postIdParse : Option String
  postBody : String
  getStatus : Nat
  getParse : Option AppDetails
deriving DecidableEq

/-- The error raised by `put` when the app name is owned by another org. -/
def appExistsMsg (appName actualOrg requestedOrg : String) : String :=
  "app '" ++ (appName ++ ("' already exists but belongs to organization '" ++
    (actualOrg ++ ("', not the requested '" ++ (requestedOrg ++ "'.")))))

/-- `app.rs::put`: create the app; on 422 probe by name and accept only an
org-slug match; otherwise the original POST failure is the reported error. -/
def put (token : Option String) (env : PutEnv) (org_slug app_name : String) :
    Except String App × List NetCall :=
  match request_with_api_token token with
  | Except.error e => (Except.error e, [])
  | Except.ok _ =>
    if is_success env.postStatus then
      match env.postIdParse with
      | some id => (Except.ok ⟨id, app_name⟩, [NetCall.postApp])
      | none => (Except.error decodeErrMsg, [NetCall.postApp])
    else if env.postStatus == 422 then
      match request_with_api_token token with
      | Except.error e => (Except.error e, [NetCall.postApp])
      | Except.ok _ =>
        if is_success env.getStatus then
          match env.getParse with
          | some d =>
            if d.orgSlug == org_slug then
              (Except.ok ⟨d.id, d.name⟩, [NetCall.postApp, NetCall.getApp])
            else
              (Except.error (appExistsMsg app_name d.orgSlug org_slug),
                [NetCall.postApp, NetCall.getApp])
          | none => (Except.error decodeErrMsg, [NetCall.postApp, NetCall.getApp])
        else
          (Except.error (mkFailureMsg env.postStatus env.postBody),
            [NetCall.postApp, NetCall.getApp])
    else
      (Except.error (mkFailureMsg env.postStatus env.postBody), [NetCall.postApp])

/-- `apps::Guest::put`: validate both slugs before running `put`. -/
def apps_guest_put (token : Option String) (env : PutEnv)
    (org_slug app_name : String) : Except String App × List NetCall :=
  match SafeUrlPart.new org_slug with
  | Except.error e => (Except.error e, [])
  | Except.ok org =>
    match SafeUrlPart.new app_name with
    | Except.error e => (Except.error e, [])
    | Except.ok app => put token env org.value app.value

/-- `app.rs::get`: GET one app; 404 is `none`, other failures are errors. -/
def app_get {α : Type} (token : Option String) (status : Nat)
    (parse : Option α) (body : String) : Except String (Option α) × List NetCall :=
  match request_with_api_token token with
  | Except.error e => (Except.error e, [])
  | Except.ok _ =>
    if is_success status then
      match parse with
      | some a => (Except.ok (some a), [NetCall.getApp])
      | none => (Except.error decodeErrMsg, [NetCall.getApp])
    else if status == 404 then (Except.ok none, [NetCall.getApp])
    else (Except.error (mkFailureMsg status body), [NetCall.getApp])

/-- `app.rs::list`: GET the org's apps. -/
def app_list {α : Type} (token : Option String) (status : Nat)
    (parse : Option (List α)) (body : String) :
    Except String (List α) × List NetCall :=
  match request_with_api_token token with
  | Except.error e => (Except.error e, [])
  | Except.ok _ =>
    if is_success status then
      match parse with
      | some apps => (Except.ok apps, [NetCall.getApps])
      | none => (Except.error decodeErrMsg, [NetCall.getApps])
    else (Except.error (mkFailureMsg status body), [NetCall.getApps])

/-- `app.rs::delete`. -/
def app_delete (token : Option String) (status : Nat) (body : String) :
    Except String Unit × List NetCall :=
  match request_with_api_token token with
  | Except.error e => (Except.error e, [])
  | Except.ok _ =>
    if is_success status then (Except.ok (), [NetCall.deleteApp])
    else (Except.error (mkFailureMsg status body), [NetCall.deleteApp])

/- ### Machine creation conflict resolver (`machine.rs`) -/

/-- The literal prefix anchoring the 409 conflict message. -/
def conflictPre : String := "already_exists: unique machine name violation, machine ID "

/-- The literal suffix anchoring the 409 conflict message. -/
def conflictSuf : String := " already exists with name "

/-- `str::find` for an ASCII needle, on char lists: index of the first
occurrence of `pat` (byte- and char-level first occurrences coincide for an
ASCII pattern in UTF-8 text). -/
def findSub (pat : List Char) : List Char → Option Nat
  | [] => if List.isPrefixOf pat [] then some 0 else none
  | c :: t =>
    if List.isPrefixOf pat (c :: t) then some 0
    else Option.map (fun n => n + 1) (findSub pat t)

/-- `ResponseErrorSer::get_machine_id_on_creation_conflict`: the message
must start (offset 0) with `conflictPre` and contain `conflictSuf` after it;
the machine id is the text in between. -/
def get_machine_id_on_creation_conflict (err : List Char) : Option (List Char) :=
  match findSub conflictPre.data err with
  | some 0 =>
    match findSub conflictSuf.data (err.drop conflictPre.data.length) with
    | some e => some ((err.drop conflictPre.data.length).take e)
    | none => none
  | _ => none

/-- The (literal) context attached when id extraction from a 409 fails. -/
def conflictParseErrMsg : String :=
  "machine id cannot be parsed from 409 error response: `\x7berror:?\x7d`"

/-- Responses seen by one run of `machine.rs::create`: status, the parsed
success id, the parsed `ResponseErrorSer.error` message, and the raw body. -/
structure CreateEnv where
  status : Nat
  okIdParse : Option String
  errParse : Option String
  rawBody : String
deriving DecidableEq

/-- `machine.rs::create`: POST; on 2xx return the new id; on 409 extract the
existing machine id from the conflict message (fatal parse error if the
anchors are absent); otherwise fail with status and body. -/
def machine_create (token : Option String) (env : CreateEnv) :
    Except String String × List NetCall :=
  match request_with_api_token token with
  | Except.error e => (Except.error e, [])
  | Except.ok _ =>
    if is_success env.status then
      match env.okIdParse with
      | some id => (Except.ok id, [NetCall.postMachines])
      | none =>
        (Except.error ("Deserialization of response failed: `" ++ env.rawBody ++ "`"),
          [NetCall.postMachines])
    else if env.status == 409 then
      match env.errParse with
      | none =>
        (Except.error ("cannot parse error response: `" ++ env.rawBody ++ "`"),
          [NetCall.postMachines])
      | some msg =>
        match get_machine_id_on_creation_conflict msg.data with
        | some id => (Except.ok (String.mk id), [NetCall.postMachines])
        | none => (Except.error conflictParseErrMsg, [NetCall.postMachines])
    else
      (Except.error (statusDisplay env.status ++ " - " ++ env.rawBody),
        [NetCall.postMachines])

/-- `machine.rs::get`: 404 is `none`. -/
def machine_get {α : Type} (token : Option String) (status : Nat)
    (parse : Option α) (body : String) : Except String (Option α) × List NetCall :=
  match request_with_api_token token with
  | Except.error e => (Except.error e, [])
  | Except.ok _ =>
    if is_success status then
      match parse with
      | some m => (Except.ok (some m), [NetCall.getMachine])
      | none => (Except.error decodeErrMsg, [NetCall.getMachine])
    else if status == 404 then (Except.ok none, [NetCall.getMachine])
    else (Except.error (mkFailureMsg status body), [NetCall.getMachine])

/-- `machine.rs::list`. -/
def machine_list {α : Type} (token : Option String) (status : Nat)
    (parse : Option (List α)) (body : String) :
    Except String (List α) × List NetCall :=
  match request_with_api_token token with
  | Except.error e => (Except.error e, [])
  | Except.ok _ =>
    if is_success status then
      match parse with
      | some ms => (Except.ok ms, [NetCall.getMachines])
      | none => (Except.error decodeErrMsg, [NetCall.getMachines])
    else (Except.error (mkFailureMsg status body), [NetCall.getMachines])

/-- `machine.rs::update`: POST the new config; the response id must echo the
requested machine id. -/
def machine_update (token : Option String) (machine_id : String) (status : Nat)
    (idParse : Option String) (body : String) : Except String Unit × List NetCall :=
  match request_with_api_token token with
  | Except.error e => (Except.error e, [])
  | Except.ok _ =>
    if is_success status then
      match idParse with
      | some id =>
        if id == machine_id then (Except.ok (), [NetCall.postMachineUpdate])
        else
          (Except.error ("unexpected id returned, expected " ++ machine_id ++
              " got " ++ id), [NetCall.postMachineUpdate])
      | none =>
        (Except.error ("Deserialization of response failed: `" ++ body ++ "`"),
          [NetCall.postMachineUpdate])
    else
      (Except.error (statusDisplay status ++ " - " ++ body),
        [NetCall.postMachineUpdate])

/- ### IP reconciler (`ips.rs`) -/

/-- Modelled from the spec: the `Region` enum is generated from WIT sources
absent from the repository snapshot (serde kebab-cased region codes); the
exact variant set never influences the reconciliation or the `"global"`
normalization, so a representative enumeration suffices. -/
inductive Region where
  | ams
  | fra
  | iad
  | lhr
  | sjc
deriving DecidableEq

/-- Modelled from the spec: kebab-case deserialization of one region code. -/
def regionFromString (s : String) : Option Region :=
  if s == "ams" then some Region.ams
  else if s == "fra" then some Region.fra
  else if s == "iad" then some Region.iad
  else if s == "lhr" then some Region.lhr
  else if s == "sjc" then some Region.sjc
  else none

/-- ASCII lowercase of one char (`u8::to_ascii_lowercase`). -/
def asciiLowerChar (c : Char) : Char :=
  if 'A' ≤ c && c ≤ 'Z' then Char.ofNat (c.toNat + 32) else c

/-- `str::to_ascii_lowercase`. -/
def toAsciiLower (s : String) : String :=
  String.mk (s.data.map asciiLowerChar)

/-- `str::eq_ignore_ascii_case`. -/
def eqIgnoreAsciiCase (a b : String) : Bool :=
  toAsciiLower a == toAsciiLower b

/-- `ips.rs::deserialize_optional_region`: absent region and the `"global"`
sentinel (case-insensitively) both decode to `none`; anything else is
lowercased and parsed as a region code, failing on unknown codes. -/
def deserialize_optional_region (s : Option String) :
    Except String (Option Region) :=
  match s with
  | none => Except.ok none
  | some str =>
    if eqIgnoreAsciiCase str "global" then Except.ok none
    else
      match regionFromString (toAsciiLower str) with
      | some r => Except.ok (some r)
      | none => Except.error ("unknown variant `" ++ str ++ "`")

/-- The WIT `ips::IpVariant`. -/
inductive IpVariant where
  | ipv4 (shared : Bool) (region : Option Region)
  | ipv6 (region : Option Region)
  | ipv6Private
deriving DecidableEq

/-- The WIT `ips::IpDetail`. -/
structure IpDetail where
  ip : String
  ip_variant : IpVariant
deriving DecidableEq

/-- One raw entry of the list response (`FlyIpDetail` before the custom
region deserializer runs): the region field as it appears in JSON. -/
structure RawFlyIpDetail where
  ip : String
  region : Option String
  shared : Option Bool
deriving DecidableEq

/-- A decoded `FlyIpDetail`. -/
structure FlyIpDetail where
  ip : String
  region : Option Region
  shared : Option Bool
deriving DecidableEq

/-- Field-level decoding of one list entry (the `deserialize_with` hook). -/
def decodeFlyIpDetail (raw : RawFlyIpDetail) : Except String FlyIpDetail :=
  match deserialize_optional_region raw.region with
  | Except.error e => Except.error e
  | Except.ok r => Except.ok ⟨raw.ip, r, raw.shared⟩

/-- `ips.rs::list_ips` body mapping: classify one decoded entry into the WIT
`IpDetail` (colon means IPv6; the `fdaa` prefix means private IPv6). -/
def classifyIpDetail (fly : FlyIpDetail) : IpDetail :=
  if fly.ip.data.contains ':' then
    if List.isPrefixOf "fdaa".data fly.ip.data then
      ⟨fly.ip, IpVariant.ipv6Private⟩
    else
      ⟨fly.ip, IpVariant.ipv6 fly.region⟩
  else
    ⟨fly.ip, IpVariant.ipv4 (fly.shared.getD false) fly.region⟩

/-- Decode every raw entry, failing on the first bad region. -/
def decodeRawList : List RawFlyIpDetail → Except String (List FlyIpDetail)
  | [] => Except.ok []
  | r :: rest =>
    match decodeFlyIpDetail r with
    | Except.error e => Except.error e
    | Except.ok f =>
      match decodeRawList rest with
      | Except.error e => Except.error e
      | Except.ok fs => Except.ok (f :: fs)

/-- Responses seen by one run of the IP reconciler: the allocation POST, the
list GET, and per-address release DELETE responses. -/
structure IpEnv where
  allocStatus : Nat
  allocParse : Option String
  allocBody : String
  listStatus : Nat
  listParse : Option (List RawFlyIpDetail)
  listBody : String
  releaseStatus : String → Nat
  releaseBody : String → String

/-- `ips.rs::allocate_ip`: POST one allocation, returning the minted ip. -/
def allocate_ip (token : Option String) (env : IpEnv) :
    Except String String × List NetCall :=
  match request_with_api_token token with
  | Except.error e => (Except.error e, [])
  | Except.ok _ =>
    if is_success env.allocStatus then
      match env.allocParse with
      | some ip => (Except.ok ip, [NetCall.postIpAssignment])
      | none => (Except.error decodeErrMsg, [NetCall.postIpAssignment])
    else
      (Except.error (mkFailureMsg env.allocStatus env.allocBody),
        [NetCall.postIpAssignment])

/-- `ips.rs::list_ips`: GET the current assignments and map them to WIT
`IpDetail` values. -/
def list_ips (token : Option String) (env : IpEnv) :
    Except String (List IpDetail) × List NetCall :=
  match request_with_api_token token with
  | Except.error e => (Except.error e, [])
  | Except.ok _ =>
    if is_success env.listStatus then
      match env.listParse with
      | none => (Except.error decodeErrMsg, [NetCall.getIpAssignments])
      | some raws =>
        match decodeRawList raws with
        | Except.error e => (Except.error e, [NetCall.getIpAssignments])
        | Except.ok flys =>
          (Except.ok (flys.map classifyIpDetail), [NetCall.getIpAssignments])
    else
      (Except.error (mkFailureMsg env.listStatus env.listBody),
        [NetCall.getIpAssignments])

/-- `ips.rs::release_ip`: DELETE one assignment; 404 counts as success. -/
def release_ip (token : Option String) (status : Nat) (body : String)
    (ip : String) : Except String Unit × List NetCall :=
  match request_with_api_token token with
  | Except.error e => (Except.error e, [])
  | Except.ok _ =>
    if is_success status then (Except.ok (), [NetCall.deleteIpAssignment ip])
    else if status == 404 then (Except.ok (), [NetCall.deleteIpAssignment ip])
    else
      (Except.error (mkFailureMsg status body), [NetCall.deleteIpAssignment ip])

/-- The release loop over the redundant addresses, stopping at the first
failed release. -/
def releaseLoop (token : Option String) (env : IpEnv) :
    List String → Except String Unit × List NetCall
  | [] => (Except.ok (), [])
  | ip :: rest =>
    let r := release_ip token (env.releaseStatus ip) (env.releaseBody ip) ip
    match r.1 with
    | Except.error e => (Except.error e, r.2)
    | Except.ok _ =>
      let tail := releaseLoop token env rest
      (tail.1, r.2 ++ tail.2)

/-- `HashSet::symmetric_difference` on duplicate-free lists: elements of
`xs` absent from `ys`, then elements of `ys` absent from `xs`. -/
def symmDiffList (xs ys : List String) : List String :=
  xs.filter (fun x => !(ys.contains x)) ++ ys.filter (fun y => !(xs.contains y))

/-- `ips.rs::allocate_ip_idempotently`: allocate once, list the actual
assignments, release everything outside `pre_existing ∪ {allocated}` (and
anything expected but missing), and return the freshly allocated address. -/
def allocate_ip_idempotently (token : Option String) (env : IpEnv)
    (pre_existing : List IpDetail) : Except String String × List NetCall :=
  let a := allocate_ip token env
  match a.1 with
  | Except.error e => (Except.error e, a.2)
  | Except.ok allocated =>
    let expected := List.insert allocated ((pre_existing.map IpDetail.ip).dedup)
    let l := list_ips token env
    match l.1 with
    | Except.error e => (Except.error e, a.2 ++ l.2)
    | Except.ok details =>
      let post := (details.map IpDetail.ip).dedup
      let r := releaseLoop token env (symmDiffList post expected)
      match r.1 with
      | Except.error e => (Except.error e, a.2 ++ l.2 ++ r.2)
      | Except.ok _ => (Except.ok allocated, a.2 ++ l.2 ++ r.2)

/-- The release calls contained in a trace, as the list of their targets. -/
def releasedIps (calls : List NetCall) : List String :=
  calls.filterMap fun c =>
    match c with
    | NetCall.deleteIpAssignment ip => some ip
    | _ => none

/-- Membership in the symmetric difference of two lists-as-sets. -/
def inSymmDiff (a : String) (post expected : List String) : Prop :=
  (a ∈ post ∧ a ∉ expected) ∨ (a ∈ expected ∧ a ∉ post)

instance (a : String) (post expected : List String) :
    Decidable (inSymmDiff a post expected) := by
  unfold inSymmDiff; infer_instance

/- ### Helper lemmas -/

lemma contains_true_iff (l : List String) (a : String) :
    l.contains a = true ↔ a ∈ l := by
  simp [List.contains_iff_exists_mem_beq, beq_iff_eq]

lemma contains_false_iff (l : List String) (a : String) :
    l.contains a = false ↔ a ∉ l := by
  rw [← contains_true_iff l a]
  cases h : l.contains a <;> simp

lemma mem_symmDiffList {xs ys : List String} {a : String} :
    a ∈ symmDiffList xs ys ↔ inSymmDiff a xs ys := by
  simp only [symmDiffList, inSymmDiff, List.mem_append, List.mem_filter,
    Bool.not_eq_true', contains_false_iff]

lemma nodup_symmDiffList {xs ys : List String} (hx : xs.Nodup)
    (hy : ys.Nodup) : (symmDiffList xs ys).Nodup := by
  refine List.Nodup.append (hx.filter _) (hy.filter _) ?_
  intro a ha hb
  rw [List.mem_filter, Bool.not_eq_true', contains_false_iff] at ha hb
  exact ha.2 hb.1

lemma symmDiffList_eq_nil {xs ys : List String}
    (h : ∀ x, x ∈ xs ↔ x ∈ ys) : symmDiffList xs ys = [] := by
  simp only [symmDiffList, List.append_eq_nil, List.filter_eq_nil_iff,
    Bool.not_eq_true', contains_false_iff]
  constructor
  · intro a ha hmem
    exact hmem ((h a).mp ha)
  · intro a ha hmem
    exact hmem ((h a).mpr ha)

lemma release_ip_ok (tk : String) (status : Nat) (body ip : String)
    (h : is_success status = true ∨ status = 404) :
    release_ip (some tk) status body ip =
      (Except.ok (), [NetCall.deleteIpAssignment ip]) := by
  rcases h with hs | h404
  · simp [release_ip, request_with_api_token, hs]
  · subst h404
    simp [release_ip, request_with_api_token, is_success]

lemma releaseLoop_ok (tk : String) (env : IpEnv) (ips : List String)
    (h : ∀ ip ∈ ips,
      is_success (env.releaseStatus ip) = true ∨ env.releaseStatus ip = 404) :
    releaseLoop (some tk) env ips =
      (Except.ok (), ips.map NetCall.deleteIpAssignment) := by
  induction ips with
  | nil => rfl
  | cons ip rest ih =>
    have hip := h ip (by simp)
    have hrest := ih (fun i hi => h i (by simp [hi]))
    simp [releaseLoop, release_ip_ok tk _ _ ip hip, hrest]

lemma allocate_ip_trace (tk : String) (env : IpEnv) :
    (allocate_ip (some tk) env).2 = [NetCall.postIpAssignment] := by
  cases h1 : is_success env.allocStatus <;> cases h2 : env.allocParse <;>
    simp [allocate_ip, request_with_api_token, h1, h2]

lemma list_ips_trace (tk : String) (env : IpEnv) :
    (list_ips (some tk) env).2 = [NetCall.getIpAssignments] := by
  cases h1 : is_success env.listStatus
  · simp [list_ips, request_with_api_token, h1]
  · cases h2 : env.listParse with
    | none => simp [list_ips, request_with_api_token, h1, h2]
    | some raws =>
      cases h3 : decodeRawList raws <;>
        simp [list_ips, request_with_api_token, h1, h2, h3]

lemma reconcile_spec (tk : String) (env : IpEnv) (pre : List IpDetail)
    (allocated : String) (details : List IpDetail)
    (h1 : (allocate_ip (some tk) env).1 = Except.ok allocated)
    (h2 : (list_ips (some tk) env).1 = Except.ok details)
    (hr : ∀ ip ∈ symmDiffList ((details.map IpDetail.ip).dedup)
            (List.insert allocated ((pre.map IpDetail.ip).dedup)),
          is_success (env.releaseStatus ip) = true ∨ env.releaseStatus ip = 404) :
    allocate_ip_idempotently (some tk) env pre =
      (Except.ok allocated,
        [NetCall.postIpAssignment, NetCall.getIpAssignments] ++
          (symmDiffList ((details.map IpDetail.ip).dedup)
            (List.insert allocated ((pre.map IpDetail.ip).dedup))).map
            NetCall.deleteIpAssignment) := by
  simp only [allocate_ip_idempotently, h1, h2, allocate_ip_trace,
    list_ips_trace, releaseLoop_ok tk env _ hr]
  rfl

lemma releasedIps_calc (sd : List String) :
    releasedIps ([NetCall.postIpAssignment, NetCall.getIpAssignments] ++
      sd.map NetCall.deleteIpAssignment) = sd := by
  simp only [releasedIps, List.filterMap_append, List.filterMap_map]
  have h1 : List.filterMap
      (fun c => match c with
        | NetCall.deleteIpAssignment ip => some ip
        | _ => none)
      [NetCall.postIpAssignment, NetCall.getIpAssignments] = [] := rfl
  have h2 : ((fun c => match c with
        | NetCall.deleteIpAssignment ip => some ip
        | _ => none) ∘ NetCall.deleteIpAssignment) = some := rfl
  rw [h1, h2, List.filterMap_some, List.nil_append]

/- ### Claim theorems: IP reconciliation -/

/-- **C1**: for every run of the idempotent IP allocation with caller set
`pre_existing`, once the allocation endpoint returns `allocated` and the
list endpoint returns `post_existing`, exactly one release call is issued
for each address in the symmetric difference of `post_existing` and
`pre_existing ∪ {allocated}` and none for any other address; when the two
sets coincide no release is issued; and the operation returns `allocated`
as its success value. -/
theorem allocate_idempotently_releases_exactly_symm_diff
    (tk : String) (env : IpEnv) (pre : List IpDetail) (allocated : String)
    (details : List IpDetail)
    (h1 : (allocate_ip (some tk) env).1 = Except.ok allocated)
    (h2 : (list_ips (some tk) env).1 = Except.ok details)
    (hr : ∀ ip, inSymmDiff ip (details.map IpDetail.ip)
            (allocated :: pre.map IpDetail.ip) →
          is_success (env.releaseStatus ip) = true ∨ env.releaseStatus ip = 404) :
    (allocate_ip_idempotently (some tk) env pre).1 = Except.ok allocated ∧
    (∀ a, (releasedIps (allocate_ip_idempotently (some tk) env pre).2).count a
        = if inSymmDiff a (details.map IpDetail.ip)
            (allocated :: pre.map IpDetail.ip) then 1 else 0) ∧
    ((∀ x, x ∈ details.map IpDetail.ip ↔ x ∈ allocated :: pre.map IpDetail.ip) →
      releasedIps (allocate_ip_idempotently (some tk) env pre).2 = []) := by
  have hmem : ∀ a, inSymmDiff a ((details.map IpDetail.ip).dedup)
      (List.insert allocated ((pre.map IpDetail.ip).dedup)) ↔
      inSymmDiff a (details.map IpDetail.ip) (allocated :: pre.map IpDetail.ip) := by
    intro a
    simp [inSymmDiff, List.mem_dedup, List.mem_insert_iff, List.mem_cons]
  have hr' : ∀ ip ∈ symmDiffList ((details.map IpDetail.ip).dedup)
      (List.insert allocated ((pre.map IpDetail.ip).dedup)),
      is_success (env.releaseStatus ip) = true ∨ env.releaseStatus ip = 404 :=
    fun ip hip => hr ip ((hmem ip).mp (mem_symmDiffList.mp hip))
  have hmain := reconcile_spec tk env pre allocated details h1 h2 hr'
  have hnd : (symmDiffList ((details.map IpDetail.ip).dedup)
      (List.insert allocated ((pre.map IpDetail.ip).dedup))).Nodup :=
    nodup_symmDiffList (List.nodup_dedup _) ((List.nodup_dedup _).insert)
  refine ⟨by rw [hmain], ?_, ?_⟩
  · intro a
    rw [hmain]
    show (releasedIps ([NetCall.postIpAssignment, NetCall.getIpAssignments] ++
      _)).count a = _
    rw [releasedIps_calc]
    by_cases hin : inSymmDiff a (details.map IpDetail.ip)
        (allocated :: pre.map IpDetail.ip)
    · rw [if_pos hin]
      exact List.count_eq_one_of_mem hnd (mem_symmDiffList.mpr ((hmem a).mpr hin))
    · rw [if_neg hin]
      exact List.count_eq_zero_of_not_mem
        (fun hc => hin ((hmem a).mp (mem_symmDiffList.mp hc)))
  · intro hEq
    have hnil : symmDiffList ((details.map IpDetail.ip).dedup)
        (List.insert allocated ((pre.map IpDetail.ip).dedup)) = [] := by
      apply symmDiffList_eq_nil
      intro x
      simp only [List.mem_dedup, List.mem_insert_iff]
      rw [hEq x]
      simp [List.mem_cons, List.mem_dedup]
    rw [hmain]
    show releasedIps ([NetCall.postIpAssignment, NetCall.getIpAssignments] ++
      _) = _
    rw [hnil]
    simpa using releasedIps_calc []

/-- Concrete run for the C1 witness: `pre_existing = {a, b}`, allocation
returns `c`, the list returns `{a, b, c, d}`, every release succeeds. -/
def c1Env : IpEnv :=
  { allocStatus := 201
    allocParse := some "c"
    allocBody := ""
    listStatus := 200
    listParse := some [⟨"a", none, none⟩, ⟨"b", none, none⟩,
      ⟨"c", none, none⟩, ⟨"d", none, none⟩]
    listBody := ""
    releaseStatus := fun _ => 200
    releaseBody := fun _ => "" }

/-- Pre-existing details for the C1 witness. -/
def c1Pre : List IpDetail :=
  [⟨"a", IpVariant.ipv4 false none⟩, ⟨"b", IpVariant.ipv4 false none⟩]

/-- Details as decoded back by `list_ips` in the C1 witness run. -/
def c1Details : List IpDetail :=
  [⟨"a", IpVariant.ipv4 false none⟩, ⟨"b", IpVariant.ipv4 false none⟩,
   ⟨"c", IpVariant.ipv4 false none⟩, ⟨"d", IpVariant.ipv4 false none⟩]

theorem allocate_idempotently_releases_exactly_symm_diff_witness :
    (allocate_ip_idempotently (some "tok") c1Env c1Pre).1 = Except.ok "c" ∧
    (∀ a, (releasedIps (allocate_ip_idempotently (some "tok") c1Env c1Pre).2).count a
        = if inSymmDiff a (c1Details.map IpDetail.ip)
            ("c" :: c1Pre.map IpDetail.ip) then 1 else 0) ∧
    ((∀ x, x ∈ c1Details.map IpDetail.ip ↔ x ∈ "c" :: c1Pre.map IpDetail.ip) →
      releasedIps (allocate_ip_idempotently (some "tok") c1Env c1Pre).2 = []) :=
  allocate_idempotently_releases_exactly_symm_diff "tok" c1Env c1Pre "c"
    c1Details (by rfl) (by rfl) (fun ip _ => Or.inl rfl)

/-- **C10**: when the freshly allocated address is absent from the fetched
assignment list, it is itself in the symmetric difference, so the reconciler
issues a release for the address it just allocated — and still returns that
address as its successful outcome. -/
theorem allocate_idempotently_releases_own_allocation_when_missing
    (tk : String) (env : IpEnv) (pre : List IpDetail) (allocated : String)
    (details : List IpDetail)
    (h1 : (allocate_ip (some tk) env).1 = Except.ok allocated)
    (h2 : (list_ips (some tk) env).1 = Except.ok details)
    (hr : ∀ ip, inSymmDiff ip (details.map IpDetail.ip)
            (allocated :: pre.map IpDetail.ip) →
          is_success (env.releaseStatus ip) = true ∨ env.releaseStatus ip = 404)
    (hmiss : allocated ∉ details.map IpDetail.ip) :
    (allocate_ip_idempotently (some tk) env pre).1 = Except.ok allocated ∧
    (releasedIps (allocate_ip_idempotently (some tk) env pre).2).count allocated
      = 1 := by
  have hmem : ∀ a, inSymmDiff a ((details.map IpDetail.ip).dedup)
      (List.insert allocated ((pre.map IpDetail.ip).dedup)) ↔
      inSymmDiff a (details.map IpDetail.ip) (allocated :: pre.map IpDetail.ip) := by
    intro a
    simp [inSymmDiff, List.mem_dedup, List.mem_insert_iff, List.mem_cons]
  have hr' : ∀ ip ∈ symmDiffList ((details.map IpDetail.ip).dedup)
      (List.insert allocated ((pre.map IpDetail.ip).dedup)),
      is_success (env.releaseStatus ip) = true ∨ env.releaseStatus ip = 404 :=
    fun ip hip => hr ip ((hmem ip).mp (mem_symmDiffList.mp hip))
  have hmain := reconcile_spec tk env pre allocated details h1 h2 hr'
  have hnd : (symmDiffList ((details.map IpDetail.ip).dedup)
      (List.insert allocated ((pre.map IpDetail.ip).dedup))).Nodup :=
    nodup_symmDiffList (List.nodup_dedup _) ((List.nodup_dedup _).insert)
  have hin : inSymmDiff allocated (details.map IpDetail.ip)
      (allocated :: pre.map IpDetail.ip) :=
    Or.inr ⟨List.mem_cons_self _ _, hmiss⟩
  refine ⟨by rw [hmain], ?_⟩
  rw [hmain]
  show (releasedIps ([NetCall.postIpAssignment, NetCall.getIpAssignments] ++
    _)).count allocated = 1
  rw [releasedIps_calc]
  exact List.count_eq_one_of_mem hnd
    (mem_symmDiffList.mpr ((hmem allocated).mpr hin))

/-- Concrete run for the C10 witness: allocation returns `c` but the list
comes back as `{a}` only. -/
def c10Env : IpEnv :=
  { allocStatus := 201
    allocParse := some "c"
    allocBody := ""
    listStatus := 200
    listParse := some [⟨"a", none, none⟩]
    listBody := ""
    releaseStatus := fun _ => 200
    releaseBody := fun _ => "" }

/-- Details decoded back by `list_ips` in the C10 witness run. -/
def c10Details : List IpDetail := [⟨"a", IpVariant.ipv4 false none⟩]

theorem allocate_idempotently_releases_own_allocation_witness :
    (allocate_ip_idempotently (some "tok") c10Env []).1 = Except.ok "c" ∧
    (releasedIps (allocate_ip_idempotently (some "tok") c10Env []).2).count "c"
      = 1 :=
  allocate_idempotently_releases_own_allocation_when_missing "tok" c10Env []
    "c" c10Details (by rfl) (by rfl) (fun ip _ => Or.inl rfl)
    (by decide)

/- ### Claim theorems: app put-if-absent -/

/-- **C3**: when the create POST returns 422 and the probe GET succeeds with
an app whose organization slug equals the requested one, `put` returns
exactly the probed app record and raises no error. -/
theorem put_422_matching_org_returns_probed_app
    (tk : String) (env : PutEnv) (org app : String) (d : AppDetails)
    (h422 : env.postStatus = 422)
    (hget : is_success env.getStatus = true)
    (hparse : env.getParse = some d)
    (horg : d.orgSlug = org) :
    put (some tk) env org app =
      (Except.ok ⟨d.id, d.name⟩, [NetCall.postApp, NetCall.getApp]) := by
  have hps : is_success 422 = false := by decide
  simp [put, request_with_api_token, h422, hps, hget, hparse, horg]

theorem put_422_matching_org_returns_probed_app_witness :
    put (some "tok") ⟨422, none, "name taken", 200, some ⟨"a1", "myapp", "org1"⟩⟩
        "org1" "myapp" =
      (Except.ok ⟨"a1", "myapp"⟩, [NetCall.postApp, NetCall.getApp]) :=
  put_422_matching_org_returns_probed_app "tok"
    ⟨422, none, "name taken", 200, some ⟨"a1", "myapp", "org1"⟩⟩
    "org1" "myapp" ⟨"a1", "myapp", "org1"⟩ rfl rfl rfl rfl

/-- **C4**: when the create POST returns 422 and the probe GET succeeds with
an app whose organization slug differs from the requested one, `put` fails
with an error naming both the actual and the requested slug, and no app
record is returned. -/
theorem put_422_mismatched_org_fails_naming_both
    (tk : String) (env : PutEnv) (org app : String) (d : AppDetails)
    (h422 : env.postStatus = 422)
    (hget : is_success env.getStatus = true)
    (hparse : env.getParse = some d)
    (hne : d.orgSlug ≠ org) :
    (put (some tk) env org app).1 =
      Except.error (appExistsMsg app d.orgSlug org) ∧
    (∃ x y z, appExistsMsg app d.orgSlug org =
      x ++ (d.orgSlug ++ (y ++ (org ++ z)))) ∧
    (∀ a : App, (put (some tk) env org app).1 ≠ Except.ok a) := by
  have hmsg : put (some tk) env org app =
      (Except.error (appExistsMsg app d.orgSlug org),
        [NetCall.postApp, NetCall.getApp]) := by
    have hps : is_success 422 = false := by decide
    simp [put, request_with_api_token, h422, hps, hget, hparse, hne]
  refine ⟨by rw [hmsg], ?_, ?_⟩
  · refine ⟨"app '" ++ (app ++ "' already exists but belongs to organization '"),
      "', not the requested '", "'.", ?_⟩
    simp [appExistsMsg, String.append_assoc]
  · intro a
    rw [hmsg]
    simp

theorem put_422_mismatched_org_fails_naming_both_witness :
    (put (some "tok") ⟨422, none, "name taken", 200, some ⟨"a1", "myapp", "other"⟩⟩
        "org1" "myapp").1 =
      Except.error (appExistsMsg "myapp" "other" "org1") ∧
    (∃ x y z, appExistsMsg "myapp" "other" "org1" =
      x ++ ("other" ++ (y ++ ("org1" ++ z)))) ∧
    (∀ a : App, (put (some "tok")
        ⟨422, none, "name taken", 200, some ⟨"a1", "myapp", "other"⟩⟩
        "org1" "myapp").1 ≠ Except.ok a) :=
  put_422_mismatched_org_fails_naming_both "tok"
    ⟨422, none, "name taken", 200, some ⟨"a1", "myapp", "other"⟩⟩
    "org1" "myapp" ⟨"a1", "myapp", "other"⟩ rfl rfl rfl (by decide)

/-- **C5**: when the create POST fails and the probe-based recovery path is
unavailable (the status was not 422, or the probe GET came back with a
non-success status), `put` reports the original POST failure — its status
and body — and not the probe's own error. -/
theorem put_preserves_original_create_failure
    (tk : String) (env : PutEnv) (org app : String)
    (hfail : is_success env.postStatus = false)
    (hrec : env.postStatus ≠ 422 ∨ is_success env.getStatus = false) :
    (put (some tk) env org app).1 =
      Except.error (mkFailureMsg env.postStatus env.postBody) := by
  rcases hrec with hne | hget
  · have h : (env.postStatus == 422) = false := by simpa using hne
    simp [put, request_with_api_token, hfail, h]
  · by_cases h422 : env.postStatus = 422
    · have hps : is_success 422 = false := by decide
      simp [put, request_with_api_token, hfail, h422, hps, hget]
    · have h : (env.postStatus == 422) = false := by simpa using h422
      simp [put, request_with_api_token, hfail, h]

theorem put_preserves_original_create_failure_witness :
    (put (some "tok") ⟨422, none, "unprocessable", 500, none⟩ "org1" "myapp").1 =
      Except.error (mkFailureMsg 422 "unprocessable") :=
  put_preserves_original_create_failure "tok"
    ⟨422, none, "unprocessable", 500, none⟩ "org1" "myapp" (by decide)
    (Or.inr (by decide))

/- ### Claim theorems: machine-create conflict resolution -/

lemma findSub_eq_some_zero_iff (pat hay : List Char) :
    findSub pat hay = some 0 ↔ List.isPrefixOf pat hay = true := by
  cases hay with
  | nil =>
    unfold findSub
    split <;> simp_all
  | cons c t =>
    unfold findSub
    split
    · simp_all
    · cases findSub pat t <;> simp_all

lemma get_machine_id_of_anchored (mid : List Char) (e : Nat)
    (hfind : findSub conflictSuf.data mid = some e) :
    get_machine_id_on_creation_conflict (conflictPre.data ++ mid) =
      some (mid.take e) := by
  have h0 : findSub conflictPre.data (conflictPre.data ++ mid) = some 0 :=
    (findSub_eq_some_zero_iff _ _).mpr
      (List.isPrefixOf_iff_prefix.mpr (List.prefix_append _ _))
  unfold get_machine_id_on_creation_conflict
  rw [h0]
  rw [List.drop_left, hfind]

lemma get_machine_id_of_no_suffix (mid : List Char)
    (hfind : findSub conflictSuf.data mid = none) :
    get_machine_id_on_creation_conflict (conflictPre.data ++ mid) = none := by
  have h0 : findSub conflictPre.data (conflictPre.data ++ mid) = some 0 :=
    (findSub_eq_some_zero_iff _ _).mpr
      (List.isPrefixOf_iff_prefix.mpr (List.prefix_append _ _))
  unfold get_machine_id_on_creation_conflict
  rw [h0]
  rw [List.drop_left, hfind]

lemma get_machine_id_of_no_anchor (msg : List Char)
    (h : findSub conflictPre.data msg ≠ some 0) :
    get_machine_id_on_creation_conflict msg = none := by
  unfold get_machine_id_on_creation_conflict
  rcases hf : findSub conflictPre.data msg with _ | n
  · rfl
  · cases n with
    | zero => exact absurd hf h
    | succ m => rfl

lemma machine_create_409_of_extraction (tk : String) (env : CreateEnv)
    (msg : List Char) (h409 : env.status = 409)
    (hbody : env.errParse = some (String.mk msg)) :
    machine_create (some tk) env =
      (match get_machine_id_on_creation_conflict msg with
       | some id => Except.ok (String.mk id)
       | none => Except.error conflictParseErrMsg, [NetCall.postMachines]) := by
  have hps : is_success 409 = false := by decide
  simp only [machine_create, request_with_api_token, h409, hps, hbody,
    Bool.false_eq_true, if_false, beq_self_eq_true, if_true]
  cases get_machine_id_on_creation_conflict msg <;> rfl

/-- **C2**: a machine-create 409 whose error message starts at offset 0 with
the literal conflict prefix and contains the literal suffix after it
succeeds with exactly the substring between the anchors (the existing
machine id), issuing no further network calls; if the prefix is not at
offset 0 or the suffix is absent after it, extraction yields none and the
create fails with the fatal parse error. -/
theorem machine_create_conflict_id_extraction
    (tk : String) (env : CreateEnv) (msg mid : List Char) (e : Nat) :
    (msg = conflictPre.data ++ mid →
      (findSub conflictSuf.data mid = some e →
        get_machine_id_on_creation_conflict msg = some (mid.take e) ∧
        (env.status = 409 → env.errParse = some (String.mk msg) →
          machine_create (some tk) env =
            (Except.ok (String.mk (mid.take e)), [NetCall.postMachines]))) ∧
      (findSub conflictSuf.data mid = none →
        get_machine_id_on_creation_conflict msg = none ∧
        (env.status = 409 → env.errParse = some (String.mk msg) →
          machine_create (some tk) env =
            (Except.error conflictParseErrMsg, [NetCall.postMachines])))) ∧
    (findSub conflictPre.data msg ≠ some 0 →
      get_machine_id_on_creation_conflict msg = none ∧
      (env.status = 409 → env.errParse = some (String.mk msg) →
        machine_create (some tk) env =
          (Except.error conflictParseErrMsg, [NetCall.postMachines]))) := by
  constructor
  · rintro rfl
    constructor
    · intro hfind
      have hid := get_machine_id_of_anchored mid e hfind
      refine ⟨hid, fun h409 hbody => ?_⟩
      rw [machine_create_409_of_extraction tk env _ h409 hbody, hid]
    · intro hfind
      have hid := get_machine_id_of_no_suffix mid hfind
      refine ⟨hid, fun h409 hbody => ?_⟩
      rw [machine_create_409_of_extraction tk env _ h409 hbody, hid]
  · intro hno
    have hid := get_machine_id_of_no_anchor msg hno
    refine ⟨hid, fun h409 hbody => ?_⟩
    rw [machine_create_409_of_extraction tk env _ h409 hbody, hid]

/-- Message core for the C2 witness: id `d891` followed by the suffix. -/
def c2Mid : String := "d891" ++ (conflictSuf ++ "\"web\"")

/-- Full conflict message for the C2 witness. -/
def c2Msg : String := conflictPre ++ c2Mid

theorem machine_create_conflict_id_extraction_witness :
    get_machine_id_on_creation_conflict c2Msg.data = some "d891".data ∧
    machine_create (some "tok") ⟨409, none, some c2Msg, ""⟩ =
      (Except.ok "d891", [NetCall.postMachines]) := by
  have h := ((machine_create_conflict_id_extraction "tok"
      ⟨409, none, some c2Msg, ""⟩ c2Msg.data c2Mid.data 4).1 rfl).1 rfl
  refine ⟨?_, ?_⟩
  · rw [h.1]
    decide
  · rw [h.2 rfl rfl]
    rfl

/- ### Claim theorems: release idempotence, region normalization, token guard, slug validation -/

/-- **C6**: releasing an IP succeeds on a success status, also succeeds
(rather than failing) on HTTP 404, and fails with an error embedding status
and body on any other status. -/
theorem release_ip_not_found_is_success (tk : String) (status : Nat)
    (body ip : String) :
    (is_success status = true →
      release_ip (some tk) status body ip =
        (Except.ok (), [NetCall.deleteIpAssignment ip])) ∧
    (status = 404 →
      release_ip (some tk) status body ip =
        (Except.ok (), [NetCall.deleteIpAssignment ip])) ∧
    (is_success status = false → status ≠ 404 →
      release_ip (some tk) status body ip =
        (Except.error (mkFailureMsg status body),
          [NetCall.deleteIpAssignment ip])) := by
  refine ⟨fun hs => release_ip_ok tk status body ip (Or.inl hs),
    fun h404 => release_ip_ok tk status body ip (Or.inr h404),
    fun hs hne => ?_⟩
  have h : (status == 404) = false := by simpa using hne
  simp [release_ip, request_with_api_token, hs, h]

theorem release_ip_not_found_is_success_witness :
    release_ip (some "tok") 404 "not found" "1.2.3.4" =
      (Except.ok (), [NetCall.deleteIpAssignment "1.2.3.4"]) :=
  (release_ip_not_found_is_success "tok" 404 "not found" "1.2.3.4").2.1 rfl

/-- **C7**: a list entry whose region field is the string `"global"`
deserializes with region `none` (no error, no literal region value), and an
absent region field also yields `none`. -/
theorem region_global_deserializes_to_none (raw : RawFlyIpDetail) :
    (raw.region = some "global" →
      decodeFlyIpDetail raw = Except.ok ⟨raw.ip, none, raw.shared⟩) ∧
    (raw.region = none →
      decodeFlyIpDetail raw = Except.ok ⟨raw.ip, none, raw.shared⟩) := by
  have hglobal : eqIgnoreAsciiCase "global" "global" = true := by decide
  constructor <;> intro h <;>
    simp [decodeFlyIpDetail, deserialize_optional_region, h, hglobal]

theorem region_global_deserializes_to_none_witness :
    decodeFlyIpDetail ⟨"37.16.1.5", some "global", some true⟩ =
      Except.ok ⟨"37.16.1.5", none, some true⟩ :=
  (region_global_deserializes_to_none ⟨"37.16.1.5", some "global", some true⟩).1
    rfl

/-- **C8**: with the `FLY_API_TOKEN` environment variable absent, every
operation of the binding (machine create/get/list/update, app
get/put/list/delete, IP allocate/list/release) fails immediately with the
configuration error and issues no network request. -/
theorem missing_token_fails_before_any_network_call :
    (∀ env : CreateEnv,
      machine_create none env = (Except.error tokenErrMsg, [])) ∧
    (∀ (α : Type) (status : Nat) (parse : Option α) (body : String),
      machine_get none status parse body = (Except.error tokenErrMsg, [])) ∧
    (∀ (α : Type) (status : Nat) (parse : Option (List α)) (body : String),
      machine_list none status parse body = (Except.error tokenErrMsg, [])) ∧
    (∀ (mid : String) (status : Nat) (idParse : Option String) (body : String),
      machine_update none mid status idParse body =
        (Except.error tokenErrMsg, [])) ∧
    (∀ (α : Type) (status : Nat) (parse : Option α) (body : String),
      app_get none status parse body = (Except.error tokenErrMsg, [])) ∧
    (∀ (env : PutEnv) (org app : String),
      put none env org app = (Except.error tokenErrMsg, [])) ∧
    (∀ (α : Type) (status : Nat) (parse : Option (List α)) (body : String),
      app_list none status parse body = (Except.error tokenErrMsg, [])) ∧
    (∀ (status : Nat) (body : String),
      app_delete none status body = (Except.error tokenErrMsg, [])) ∧
    (∀ (env : IpEnv) (pre : List IpDetail),
      allocate_ip_idempotently none env pre = (Except.error tokenErrMsg, [])) ∧
    (∀ env : IpEnv, list_ips none env = (Except.error tokenErrMsg, [])) ∧
    (∀ (status : Nat) (body ip : String),
      release_ip none status body ip = (Except.error tokenErrMsg, [])) :=
  ⟨fun _ => rfl, fun _ _ _ _ => rfl, fun _ _ _ _ => rfl, fun _ _ _ _ => rfl,
    fun _ _ _ _ => rfl, fun _ _ _ => rfl, fun _ _ _ _ => rfl, fun _ _ => rfl,
    fun _ _ => rfl, fun _ => rfl, fun _ _ _ => rfl⟩

/-- **C9**: a caller-supplied identifier whose characters are all ASCII
alphanumeric or hyphen passes `SafeUrlPart::new`; a string with any
character outside that set is rejected with the illegal-slug error before
any network call is made. -/
theorem safe_url_part_validation (s : String) :
    ((∀ c ∈ s.data, isAsciiAlphanum c = true ∨ c = '-') →
      SafeUrlPart.new s = Except.ok ⟨s⟩) ∧
    ((∃ c ∈ s.data, ¬(isAsciiAlphanum c = true ∨ c = '-')) →
      SafeUrlPart.new s = Except.error "illegal slug" ∧
      (∀ (token : Option String) (env : PutEnv) (app : String),
        apps_guest_put token env s app =
          (Except.error "illegal slug", []))) := by
  constructor
  · intro h
    have hall : s.data.all (fun c => isAsciiAlphanum c || c == '-') = true := by
      rw [List.all_eq_true]
      intro c hc
      rcases h c hc with ha | hd
      · simp [ha]
      · simp [hd]
    simp [SafeUrlPart.new, hall]
  · intro h
    have hall : s.data.all (fun c => isAsciiAlphanum c || c == '-') = false := by
      rcases h with ⟨c, hc, hbad⟩
      rw [Bool.eq_false_iff]
      intro hall
      rw [List.all_eq_true] at hall
      have := hall c hc
      rcases Bool.or_eq_true_iff.mp this with ha | hd
      · exact hbad (Or.inl ha)
      · exact hbad (Or.inr (by simpa using hd))
    have hnew : SafeUrlPart.new s = Except.error "illegal slug" := by
      simp [SafeUrlPart.new, hall]
    exact ⟨hnew, fun token env app => by simp [apps_guest_put, hnew]⟩

theorem safe_url_part_validation_witness :
    SafeUrlPart.new "my-app2" = Except.ok ⟨"my-app2"⟩ ∧
    SafeUrlPart.new "my_app" = Except.error "illegal slug" ∧
    apps_guest_put (some "tok") ⟨200, some "a1", "", 200, none⟩ "my_app"
      "other" = (Except.error "illegal slug", []) := by
  refine ⟨(safe_url_part_validation "my-app2").1 (by decide), ?_, ?_⟩
  · exact ((safe_url_part_validation "my_app").2 (by decide)).1
  · exact ((safe_url_part_validation "my_app").2 (by decide)).2
      (some "tok") ⟨200, some "a1", "", 200, none⟩ "other"
